import Mathlib

/-!
Shallow embedding of the allocation decision engine `agentAllocateSingle`
(TypeScript / Firestore).  Documents are modelled as Lean structures; the
Firestore store is a `State` of three document lists; the engine is a pure
function from a state, a request id and a clock value (`Date.now()`) to an
outcome together with the post-commit state.  Wall-clock times of day
("HH:MM" strings in the source) are modelled as hour/minute pairs.
-/

/-- A time of day, the parsed form of an "HH:MM" string. -/
structure TimeStr where
  h : Nat
  m : Nat
deriving DecidableEq, Repr

/-- `toMinutes`: convert a time of day to minutes since midnight. -/
def toMinutes (t : TimeStr) : Nat := t.h * 60 + t.m

/-- `overlaps`: half-open interval overlap test `max(aS,bS) < min(aE,bE)`. -/
def overlaps (aS aE bS bE : Nat) : Bool := max aS bS < min aE bE

/-- `RequestDoc`: a usage request.  `numSystems` is `Option Int` because the
stored field may be absent; statuses and roles are the literal strings of
the source unions. -/
structure RequestDoc where
  id : String
  loginId : String
  requesterName : String
  role : String
  purpose : String
  date : String
  inTime : TimeStr
  outTime : TimeStr
  numSystems : Option Int
  status : String
deriving DecidableEq, Repr

/-- `AllocationDoc`: a commitment binding a set of system numbers to a
request for a date and time window. -/
structure AllocationDoc where
  id : String
  requestId : String
  loginId : String
  requesterName : String
  systems : List Nat
  date : String
  inTime : TimeStr
  outTime : TimeStr
  createdBy : String
deriving DecidableEq, Repr

/-- `SystemDoc`: one allocatable workstation. -/
structure SystemDoc where
  id : String
  systemNumber : Nat
  type : String
  status : String
deriving DecidableEq, Repr

/-- The Firestore store visible to the engine. -/
structure State where
  requests : List RequestDoc
  systems : List SystemDoc
  allocations : List AllocationDoc
deriving DecidableEq, Repr

/-- One relocation move recorded by the reshuffle pass
(`{ moveAllocationId, from, to }` in the source). -/
structure Reshuffle where
  moveAllocationId : String
  fromSys : Nat
  toSys : Nat
deriving DecidableEq, Repr

/-- The outcome shape returned by `agentAllocateSingle`:
`{ok:false, reason}` or `{ok:true, mode, chosen, reshuffles}`. -/
inductive AgentResult where
  | err (reason : String)
  | ok (mode : String) (chosen : List Nat) (reshuffles : List Reshuffle)
deriving DecidableEq, Repr

/-- `RESERVED_I7`: per-class reserved carve-out size for class i7. -/
def RESERVED_I7 : Nat := 2

/-- `RESERVED_I9`: per-class reserved carve-out size for class i9. -/
def RESERVED_I9 : Nat := 3

/-- Ascending sort of a number list (`.sort((a,b)=>a-b)` in the source). -/
def sortNat (l : List Nat) : List Nat := l.insertionSort (· ≤ ·)

/-- The systems query result, ordered by system number
(`orderBy("systemNumber")`). -/
def sortedSystemsOf (st : State) : List SystemDoc :=
  st.systems.insertionSort (fun a b => a.systemNumber ≤ b.systemNumber)

/-- Ascending list of i7 system numbers. -/
def i7NumsOf (st : State) : List Nat :=
  sortNat (((sortedSystemsOf st).filter (fun s => s.type = "i7")).map (·.systemNumber))

/-- Ascending list of i9 system numbers. -/
def i9NumsOf (st : State) : List Nat :=
  sortNat (((sortedSystemsOf st).filter (fun s => s.type = "i9")).map (·.systemNumber))

/-- Derived reserved set for class i7: the last `RESERVED_I7` entries of the
ascending number list (`i7Nums.slice(-RESERVED_I7)`). -/
def reservedI7Of (st : State) : List Nat :=
  (i7NumsOf st).drop ((i7NumsOf st).length - RESERVED_I7)

/-- Derived reserved set for class i9 (`i9Nums.slice(-RESERVED_I9)`). -/
def reservedI9Of (st : State) : List Nat :=
  (i9NumsOf st).drop ((i9NumsOf st).length - RESERVED_I9)

/-- Whether a system document is in its own class's derived reserved set
(`sys.type === "i7" ? reservedI7.has(n) : reservedI9.has(n)`). -/
def isReservedSys (st : State) (s : SystemDoc) : Bool :=
  if s.type = "i7" then s.systemNumber ∈ reservedI7Of st
  else s.systemNumber ∈ reservedI9Of st

/-- The date-scoped allocation snapshot
(`where("date","==",req.date)`). -/
def dateAllocsOf (st : State) (req : RequestDoc) : List AllocationDoc :=
  st.allocations.filter (fun a => a.date = req.date)

/-- The busy set: numbers of all systems of commitments whose window
overlaps the request's window. -/
def busyOf (st : State) (req : RequestDoc) : List Nat :=
  ((dateAllocsOf st req).filter (fun a =>
      overlaps (toMinutes req.inTime) (toMinutes req.outTime)
        (toMinutes a.inTime) (toMinutes a.outTime))).flatMap (·.systems)

/-- The directly-free list: system numbers of documents that are
non-reserved, not busy and not in maintenance, in query order. -/
def directFreeOf (st : State) (req : RequestDoc) : List Nat :=
  ((sortedSystemsOf st).filter (fun s =>
      ¬isReservedSys st s ∧ s.systemNumber ∉ busyOf st req ∧
        s.status ≠ "maintenance")).map (·.systemNumber)

/-- The effective demand: `Math.max(1, req.numSystems || 1)` — a missing or
zero (falsy) stored demand is replaced by 1 before the max. -/
def needOf (req : RequestDoc) : Nat :=
  (max 1 (match req.numSystems with
    | none => 1
    | some v => if v = 0 then 1 else v)).toNat

/-- All non-reserved system numbers in query order (maintenance and busy
systems included), the candidate list of the reshuffle pass. -/
def nonReservedAllOf (st : State) : List Nat :=
  ((sortedSystemsOf st).filter (fun s => ¬isReservedSys st s)).map (·.systemNumber)

/-- The allocations listed under a system number in `sysToOverlaps`: those
overlapping the request window whose (snapshot-time) system set holds the
number, in snapshot order. -/
def overlapDocsFor (allocs : List AllocationDoc) (s e n : Nat) : List AllocationDoc :=
  allocs.filter (fun a =>
    overlaps s e (toMinutes a.inTime) (toMinutes a.outTime) ∧ n ∈ a.systems)

/-- The busy set of one commitment's own window: systems of every other
current allocation whose window overlaps it. -/
def busyForAllocOf (allocs : List AllocationDoc) (allocId : String)
    (s2 e2 : Nat) : List Nat :=
  (allocs.filter (fun a =>
      a.id ≠ allocId ∧
        overlaps s2 e2 (toMinutes a.inTime) (toMinutes a.outTime))).flatMap (·.systems)

/-- The mutable planning state of the reshuffle loop: the in-memory
date-scoped allocation copies, the busy set, and the accumulated chosen
list and relocation moves. -/
structure LoopState where
  allocations : List AllocationDoc
  busy : List Nat
  chosen : List Nat
  reshuffles : List Reshuffle
deriving DecidableEq, Repr

/-- Replace `fromSys` by `toSys` in a system set
(`systems.map(n => n === from ? to : n)`). -/
def substSys (fromSys toSys : Nat) (systems : List Nat) : List Nat :=
  systems.map (fun n => if n = fromSys then toSys else n)

/-- The inner relocation search for one busy candidate system: walk its
overlapping commitments; for the first one with a relocation target
(first non-reserved number outside that commitment's own busy set and
different from the candidate), record the move, rewrite the in-memory
commitment, and delete the candidate from the busy set. -/
def tryRelocate (nonResAll : List Nat) (sysNum : Nat) (st : LoopState) :
    List AllocationDoc → Option LoopState
  | [] => none
  | alloc :: rest =>
    match nonResAll.filter (fun n =>
        n ∉ busyForAllocOf st.allocations alloc.id
              (toMinutes alloc.inTime) (toMinutes alloc.outTime) ∧
          n ≠ sysNum) with
    | [] => tryRelocate nonResAll sysNum st rest
    | target :: _ =>
      some { allocations := st.allocations.map (fun a =>
               if a.id = alloc.id then
                 { a with systems := substSys sysNum target a.systems }
               else a),
             busy := st.busy.filter (fun n => n ≠ sysNum),
             chosen := st.chosen,
             reshuffles := st.reshuffles ++ [⟨alloc.id, sysNum, target⟩] }

/-- The reshuffle pass: walk candidate systems in ascending order, taking
free ones directly and freeing busy ones by relocation when possible,
stopping once `need` systems are chosen.  `origAllocs` is the snapshot
the `sysToOverlaps` index was built from; `s`/`e` the request window. -/
def reshuffleLoop (need : Nat) (nonResAll : List Nat)
    (origAllocs : List AllocationDoc) (s e : Nat) :
    List Nat → LoopState → LoopState
  | [], st => st
  | sysNum :: rest, st =>
    if sysNum ∈ st.busy then
      match tryRelocate nonResAll sysNum st (overlapDocsFor origAllocs s e sysNum) with
      | none => reshuffleLoop need nonResAll origAllocs s e rest st
      | some st1 =>
        if (st1.chosen ++ [sysNum]).length ≥ need then
          { st1 with chosen := st1.chosen ++ [sysNum] }
        else
          reshuffleLoop need nonResAll origAllocs s e rest
            { st1 with chosen := st1.chosen ++ [sysNum] }
    else
      if (st.chosen ++ [sysNum]).length ≥ need then
        { st with chosen := st.chosen ++ [sysNum] }
      else
        reshuffleLoop need nonResAll origAllocs s e rest
          { st with chosen := st.chosen ++ [sysNum] }

/-- The whole planning reshuffle phase for one request. -/
def reshufflePhaseOf (st : State) (req : RequestDoc) : LoopState :=
  reshuffleLoop (needOf req) (nonReservedAllOf st) (dateAllocsOf st req)
    (toMinutes req.inTime) (toMinutes req.outTime)
    (nonReservedAllOf st)
    { allocations := dateAllocsOf st req, busy := busyOf st req,
      chosen := [], reshuffles := [] }

/-- The new commitment document written by the committer. -/
def newAllocDoc (req : RequestDoc) (chosen : List Nat) (now : Nat) : AllocationDoc :=
  { id := "alloc_" ++ req.id ++ "_" ++ toString now,
    requestId := req.id,
    loginId := req.loginId,
    requesterName := req.requesterName,
    systems := chosen,
    date := req.date,
    inTime := req.inTime,
    outTime := req.outTime,
    createdBy := "agent" }

/-- Set a request's status by id (`tx.update(requests/id, {status})`). -/
def setReqStatus (reqs : List RequestDoc) (id status : String) : List RequestDoc :=
  reqs.map (fun r => if r.id = id then { r with status := status } else r)

/-- Apply one relocation move at commit time: the allocation with the
matching id (if any — a missing document is skipped) has `fromSys`
replaced by `toSys` in its system set; nothing else changes. -/
def applyOneReshuffle (allocs : List AllocationDoc) (r : Reshuffle) :
    List AllocationDoc :=
  allocs.map (fun a =>
    if a.id = r.moveAllocationId then
      { a with systems := substSys r.fromSys r.toSys a.systems }
    else a)

/-- Apply all relocation moves of the transaction in order. -/
def applyReshuffles (allocs : List AllocationDoc) : List Reshuffle → List AllocationDoc
  | [] => allocs
  | r :: rest => applyReshuffles (applyOneReshuffle allocs r) rest

/-- The allocation decision engine `agentAllocateSingle`: fetch and guard
the request, compute the directly-free list, allocate directly when it
covers the demand, otherwise run the reshuffle pass; commit the plan (new
commitment, relocations, request status) or mark the request rejected. -/
def agentAllocateSingle (st : State) (requestId : String) (now : Nat) :
    AgentResult × State :=
  match st.requests.find? (fun r => r.id = requestId) with
  | none => (AgentResult.err "request_not_found", st)
  | some req =>
    if req.status ≠ "pending" then (AgentResult.err "not_pending", st)
    else if (directFreeOf st req).length ≥ needOf req then
      (AgentResult.ok "direct" ((directFreeOf st req).take (needOf req)) [],
       { st with
           allocations := st.allocations ++
             [newAllocDoc req ((directFreeOf st req).take (needOf req)) now],
           requests := setReqStatus st.requests req.id "accepted" })
    else if (reshufflePhaseOf st req).chosen.length ≥ needOf req then
      (AgentResult.ok "minimal_reshuffle"
         ((reshufflePhaseOf st req).chosen.take (needOf req))
         (reshufflePhaseOf st req).reshuffles,
       { st with
           allocations :=
             applyReshuffles st.allocations (reshufflePhaseOf st req).reshuffles ++
               [newAllocDoc req ((reshufflePhaseOf st req).chosen.take (needOf req)) now],
           requests := setReqStatus st.requests req.id "accepted" })
    else
      (AgentResult.err "no_feasible_plan",
       { st with requests := setReqStatus st.requests req.id "rejected" })

/-- Pairwise check between two commitments: sharing a date with
overlapping windows forces disjoint system sets. -/
def pairDisjoint (a b : AllocationDoc) : Bool :=
  if a.date = b.date ∧
      overlaps (toMinutes a.inTime) (toMinutes a.outTime)
        (toMinutes b.inTime) (toMinutes b.outTime) then
    a.systems.all (fun n => n ∉ b.systems)
  else true

/-- The ledger invariant: every pair of distinct commitments on the same
date with overlapping windows has disjoint system sets. -/
def ledgerInvariant : List AllocationDoc → Bool
  | [] => true
  | a :: rest => (rest.all (fun b => pairDisjoint a b)) && ledgerInvariant rest

/-! ### Concrete stores used to evaluate the engine on closed inputs -/

/-- A workstation document with the given number, class and status. -/
def mkSys (n : Nat) (ty status : String) : SystemDoc :=
  { id := "s" ++ toString n, systemNumber := n, type := ty, status := status }

/-- A pending request for 3 systems on date "d", window 10:00–11:00. -/
def reqA : RequestDoc :=
  { id := "r1", loginId := "u", requesterName := "U", role := "STUDENT",
    purpose := "p", date := "d", inTime := ⟨10, 0⟩, outTime := ⟨11, 0⟩,
    numSystems := some 3, status := "pending" }

/-- The same request asking for one system. -/
def reqB : RequestDoc := { reqA with numSystems := some 1 }

/-- A request with no stored demand. -/
def reqNone : RequestDoc := { reqA with numSystems := none }

/-- A request that is no longer pending. -/
def reqDone : RequestDoc := { reqB with status := "accepted" }

/-- An existing commitment on system 2 for the same date and window. -/
def allocX : AllocationDoc :=
  { id := "X", requestId := "rq0", loginId := "v", requesterName := "V",
    systems := [2], date := "d", inTime := ⟨10, 0⟩, outTime := ⟨11, 0⟩,
    createdBy := "agent" }

/-- The empty store. -/
def emptyState : State := { requests := [], systems := [], allocations := [] }

/-- Scenario A store: ten available i7 systems, no commitments. -/
def stA : State :=
  { requests := [reqA],
    systems := (List.range 10).map (fun i => mkSys (i + 1) "i7" "available"),
    allocations := [] }

/-- Store exhibiting the reshuffle planning defect: five i7 systems
(4 and 5 reserved), one commitment on system 2 overlapping the request. -/
def stBug : State :=
  { requests := [reqA],
    systems := [mkSys 1 "i7" "available", mkSys 2 "i7" "available",
                mkSys 3 "i7" "available", mkSys 4 "i7" "available",
                mkSys 5 "i7" "available"],
    allocations := [allocX] }

/-- Store with the only non-reserved system under maintenance. -/
def stMaint : State :=
  { requests := [reqB],
    systems := [mkSys 1 "i7" "maintenance", mkSys 2 "i7" "available",
                mkSys 3 "i7" "available"],
    allocations := [] }

/-- Scenario C store: the only non-reserved system is busy and its
commitment has no relocation target. -/
def stInf : State :=
  { requests := [reqB],
    systems := [mkSys 1 "i7" "available", mkSys 2 "i7" "available",
                mkSys 3 "i7" "available"],
    allocations := [{ allocX with systems := [1] }] }

/-- Store whose only request is no longer pending. -/
def stDone : State := { stInf with requests := [reqDone] }

/-- A status rewrite that turns "available" into "occupied" and keeps every
other field and status; it preserves number, class and maintenance-ness. -/
def statusFlip (s : SystemDoc) : SystemDoc :=
  if s.status = "available" then { s with status := "occupied" } else s

/-! ### Theorems -/

/-- C7: a request id that does not resolve yields `request_not_found` with
no state change, and a request that exists but is not pending yields
`not_pending` with no state change (so a second invocation after a
completed attempt fails with zero writes). -/
theorem agentAllocateSingle_guards (st : State) (requestId : String) (now : Nat) :
    (st.requests.find? (fun r => r.id = requestId) = none →
      agentAllocateSingle st requestId now = (AgentResult.err "request_not_found", st)) ∧
    (∀ req : RequestDoc, st.requests.find? (fun r => r.id = requestId) = some req →
      req.status ≠ "pending" →
      agentAllocateSingle st requestId now = (AgentResult.err "not_pending", st)) := by
  constructor
  · intro h
    unfold agentAllocateSingle
    rw [h]
  · intro req h hs
    unfold agentAllocateSingle
    rw [h]
    simp only [if_pos hs]

/-- Witness for C7: both guards evaluated on concrete stores — an id absent
from the empty store, and the store whose only request is accepted. -/
theorem agentAllocateSingle_guards_witness :
    agentAllocateSingle emptyState "x" 0 = (AgentResult.err "request_not_found", emptyState) ∧
    agentAllocateSingle stDone "r1" 0 = (AgentResult.err "not_pending", stDone) :=
  ⟨(agentAllocateSingle_guards emptyState "x" 0).1 (by decide),
   (agentAllocateSingle_guards stDone "r1" 0).2 reqDone (by decide) (by decide)⟩

/-- C9: the effective demand is `max 1 numSystems` — a missing demand is
treated as 1, and zero or negative stored demands also yield 1. -/
theorem needOf_spec (req : RequestDoc) :
    (req.numSystems = none → needOf req = 1) ∧
    (∀ v : Int, req.numSystems = some v → (needOf req : Int) = max 1 v) := by
  constructor
  · intro h
    simp [needOf, h]
  · intro v h
    simp only [needOf, h]
    by_cases hv : v = 0
    · subst hv
      decide
    · rw [if_neg hv, Int.toNat_of_nonneg (le_trans zero_le_one (le_max_left 1 v))]

/-- Witness for C9: the missing-demand request and the demand-3 request. -/
theorem needOf_spec_witness :
    needOf reqNone = 1 ∧ (needOf reqA : Int) = max 1 3 :=
  ⟨(needOf_spec reqNone).1 rfl, (needOf_spec reqA).2 3 rfl⟩

/-- C4: when the directly-free list covers the demand, the engine answers
in direct mode with exactly the first `need` entries of that list and no
relocations, and the list is in ascending sequence-number order. -/
theorem directAllocation_spec (st : State) (requestId : String) (now : Nat)
    (req : RequestDoc)
    (hfind : st.requests.find? (fun r => r.id = requestId) = some req)
    (hpend : req.status = "pending")
    (hlen : needOf req ≤ (directFreeOf st req).length) :
    (agentAllocateSingle st requestId now).1 =
      AgentResult.ok "direct" ((directFreeOf st req).take (needOf req)) [] ∧
    List.Sorted (· ≤ ·) (directFreeOf st req) := by
  constructor
  · unfold agentAllocateSingle
    rw [hfind]
    simp only [hpend, ne_eq, not_true_eq_false, if_false, ge_iff_le, if_pos hlen]
  · haveI h1 : IsTotal SystemDoc (fun a b => a.systemNumber ≤ b.systemNumber) :=
      ⟨fun a b => Nat.le_total _ _⟩
    haveI h2 : IsTrans SystemDoc (fun a b => a.systemNumber ≤ b.systemNumber) :=
      ⟨fun _ _ _ => Nat.le_trans⟩
    have hsor : List.Sorted (fun a b : SystemDoc => a.systemNumber ≤ b.systemNumber)
        (sortedSystemsOf st) := List.sorted_insertionSort _ _
    exact (hsor.filter _).map _ (fun _ _ h => h)

/-- Witness for C4: Scenario A — ten available systems, demand 3. -/
theorem directAllocation_spec_witness :
    (agentAllocateSingle stA "r1" 0).1 =
      AgentResult.ok "direct" ((directFreeOf stA reqA).take (needOf reqA)) [] ∧
    List.Sorted (· ≤ ·) (directFreeOf stA reqA) :=
  directAllocation_spec stA "r1" 0 reqA (by decide) rfl (by decide)

/-- C6: when neither the direct path nor the reshuffle pass reaches the
demand, the engine marks the request rejected, writes no commitment and
applies no relocation, and reports `no_feasible_plan`. -/
theorem infeasible_spec (st : State) (requestId : String) (now : Nat)
    (req : RequestDoc)
    (hfind : st.requests.find? (fun r => r.id = requestId) = some req)
    (hpend : req.status = "pending")
    (hfree : (directFreeOf st req).length < needOf req)
    (hloop : (reshufflePhaseOf st req).chosen.length < needOf req) :
    agentAllocateSingle st requestId now =
      (AgentResult.err "no_feasible_plan",
       { st with requests := setReqStatus st.requests req.id "rejected" }) := by
  unfold agentAllocateSingle
  rw [hfind]
  simp only [hpend, ne_eq, not_true_eq_false, if_false, ge_iff_le,
    if_neg (Nat.not_le.mpr hfree), if_neg (Nat.not_le.mpr hloop)]

/-- Witness for C6: Scenario C — the only non-reserved system is busy and
its commitment has no relocation target. -/
theorem infeasible_spec_witness :
    agentAllocateSingle stInf "r1" 0 =
      (AgentResult.err "no_feasible_plan",
       { stInf with requests := setReqStatus stInf.requests reqB.id "rejected" }) :=
  infeasible_spec stInf "r1" 0 reqB (by decide) rfl (by decide) (by decide)

/-- C3: the engine's failure reasons are exactly `request_not_found`,
`not_pending` and `no_feasible_plan` — the transactional committer never
re-validates the plan and no `commit_conflict` outcome exists: the commit
step only skips relocation documents that have vanished (`!snap.exists`)
and otherwise applies every write unconditionally. -/
theorem failure_reason_cases (st : State) (requestId : String) (now : Nat)
    (r : String)
    (h : (agentAllocateSingle st requestId now).1 = AgentResult.err r) :
    r = "request_not_found" ∨ r = "not_pending" ∨ r = "no_feasible_plan" := by
  unfold agentAllocateSingle at h
  cases hfind : st.requests.find? (fun rq => rq.id = requestId) with
  | none =>
    rw [hfind] at h
    exact Or.inl (AgentResult.err.inj h.symm)
  | some req =>
    rw [hfind] at h
    simp only at h
    by_cases hp : req.status ≠ "pending"
    · rw [if_pos hp] at h
      exact Or.inr (Or.inl (AgentResult.err.inj h.symm))
    · rw [if_neg hp] at h
      by_cases hd : (directFreeOf st req).length ≥ needOf req
      · rw [if_pos hd] at h
        exact absurd h (by simp)
      · rw [if_neg hd] at h
        by_cases hr : (reshufflePhaseOf st req).chosen.length ≥ needOf req
        · rw [if_pos hr] at h
          exact absurd h (by simp)
        · rw [if_neg hr] at h
          exact Or.inr (Or.inr (AgentResult.err.inj h.symm))

/-- Witness for C3: the not-found failure on the empty store is one of the
three reachable reasons. -/
theorem failure_reason_cases_witness :
    "request_not_found" = "request_not_found" ∨ "request_not_found" = "not_pending" ∨
      "request_not_found" = "no_feasible_plan" :=
  failure_reason_cases emptyState "x" 0 "request_not_found" (by decide)

/-- C1: evaluation at the failing input.  On `stBug` the reshuffle pass
relocates commitment "X" from system 2 onto system 1 while system 1 is
also chosen for the new request, so the successful attempt leaves two
commitments on the same date with overlapping windows sharing system 1:
the ledger invariant holds before the attempt and is violated after it. -/
theorem reshuffle_violates_ledger_invariant :
    (agentAllocateSingle stBug "r1" 0).1 =
      AgentResult.ok "minimal_reshuffle" [1, 2, 3] [⟨"X", 2, 1⟩] ∧
    ledgerInvariant stBug.allocations = true ∧
    ledgerInvariant (agentAllocateSingle stBug "r1" 0).2.allocations = false := by
  decide

/-- C2 counterexample: on `stMaint` the only non-reserved system, number 1,
has stored status "maintenance", yet the reshuffle pass chooses it, so a
successful outcome does contain a maintenance resource. -/
theorem maintenance_chosen_by_reshuffle :
    (agentAllocateSingle stMaint "r1" 0).1 =
      AgentResult.ok "minimal_reshuffle" [1] [] ∧
    (stMaint.systems.filter
        (fun s => s.systemNumber ∈ [1] ∧ s.status = "maintenance")).length = 1 := by
  decide

/-! ### Membership lemmas for the derived views -/

theorem mem_sortedSystemsOf {st : State} {s : SystemDoc} :
    s ∈ sortedSystemsOf st ↔ s ∈ st.systems :=
  List.mem_insertionSort _

theorem mem_i7NumsOf {st : State} {n : Nat} :
    n ∈ i7NumsOf st ↔ ∃ s, s ∈ st.systems ∧ s.type = "i7" ∧ s.systemNumber = n := by
  unfold i7NumsOf sortNat
  rw [List.mem_insertionSort]
  simp only [List.mem_map, List.mem_filter, mem_sortedSystemsOf, decide_eq_true_eq]
  constructor
  · rintro ⟨s, ⟨hs, ht⟩, hn⟩
    exact ⟨s, hs, ht, hn⟩
  · rintro ⟨s, hs, ht, hn⟩
    exact ⟨s, ⟨hs, ht⟩, hn⟩

theorem mem_i9NumsOf {st : State} {n : Nat} :
    n ∈ i9NumsOf st ↔ ∃ s, s ∈ st.systems ∧ s.type = "i9" ∧ s.systemNumber = n := by
  unfold i9NumsOf sortNat
  rw [List.mem_insertionSort]
  simp only [List.mem_map, List.mem_filter, mem_sortedSystemsOf, decide_eq_true_eq]
  constructor
  · rintro ⟨s, ⟨hs, ht⟩, hn⟩
    exact ⟨s, hs, ht, hn⟩
  · rintro ⟨s, hs, ht, hn⟩
    exact ⟨s, ⟨hs, ht⟩, hn⟩

theorem numbers_injOn {st : State}
    (hnodup : (st.systems.map (fun s => s.systemNumber)).Nodup)
    {s t : SystemDoc} (hs : s ∈ st.systems) (ht : t ∈ st.systems)
    (h : s.systemNumber = t.systemNumber) : s = t :=
  List.inj_on_of_nodup_map hnodup hs ht h

theorem reservedI7Of_subset (st : State) : reservedI7Of st ⊆ i7NumsOf st :=
  List.drop_subset _ _

theorem reservedI9Of_subset (st : State) : reservedI9Of st ⊆ i9NumsOf st :=
  List.drop_subset _ _

theorem mem_nonReservedAllOf {st : State} {n : Nat} :
    n ∈ nonReservedAllOf st ↔
      ∃ s, s ∈ st.systems ∧ isReservedSys st s = false ∧ s.systemNumber = n := by
  unfold nonReservedAllOf
  simp only [List.mem_map, List.mem_filter, mem_sortedSystemsOf, decide_eq_true_eq,
    Bool.not_eq_true]
  constructor
  · rintro ⟨s, ⟨hs, hr⟩, hn⟩
    exact ⟨s, hs, hr, hn⟩
  · rintro ⟨s, hs, hr, hn⟩
    exact ⟨s, ⟨hs, hr⟩, hn⟩

theorem mem_directFreeOf {st : State} {req : RequestDoc} {n : Nat} :
    n ∈ directFreeOf st req ↔
      ∃ s, s ∈ st.systems ∧ s.systemNumber = n ∧ isReservedSys st s = false ∧
        n ∉ busyOf st req ∧ s.status ≠ "maintenance" := by
  unfold directFreeOf
  simp only [List.mem_map, List.mem_filter, mem_sortedSystemsOf, decide_eq_true_eq,
    Bool.not_eq_true]
  constructor
  · rintro ⟨s, ⟨hs, hr, hb, hm⟩, hn⟩
    exact ⟨s, hs, hn, hr, hn ▸ hb, hm⟩
  · rintro ⟨s, hs, hn, hr, hb, hm⟩
    exact ⟨s, ⟨hs, hr, hn.symm ▸ hb, hm⟩, hn⟩

theorem not_reserved_of_mem_nonReservedAllOf {st : State}
    (hnodup : (st.systems.map (fun s => s.systemNumber)).Nodup)
    {n : Nat} (hn : n ∈ nonReservedAllOf st) :
    n ∉ reservedI7Of st ∧ n ∉ reservedI9Of st := by
  obtain ⟨s, hs, hres, rfl⟩ := mem_nonReservedAllOf.mp hn
  by_cases ht : s.type = "i7"
  · refine ⟨fun hmem => ?_, fun hmem => ?_⟩
    · rw [isReservedSys, if_pos ht] at hres
      simp only [decide_eq_false_iff_not] at hres
      exact hres hmem
    · obtain ⟨t, htm, hty, hnum⟩ := mem_i9NumsOf.mp (reservedI9Of_subset st hmem)
      have heq : t = s := numbers_injOn hnodup htm hs hnum
      rw [heq, ht] at hty
      exact absurd hty (by decide)
  · refine ⟨fun hmem => ?_, fun hmem => ?_⟩
    · obtain ⟨t, htm, hty, hnum⟩ := mem_i7NumsOf.mp (reservedI7Of_subset st hmem)
      have heq : t = s := numbers_injOn hnodup htm hs hnum
      exact ht (heq ▸ hty)
    · rw [isReservedSys, if_neg ht] at hres
      simp only [decide_eq_false_iff_not] at hres
      exact hres hmem

theorem directFreeOf_subset_nonReservedAllOf (st : State) (req : RequestDoc) :
    directFreeOf st req ⊆ nonReservedAllOf st := by
  intro n hn
  obtain ⟨s, hs, hn', hres, _, _⟩ := mem_directFreeOf.mp hn
  exact mem_nonReservedAllOf.mpr ⟨s, hs, hres, hn'⟩

/-! ### Structure of the reshuffle pass -/

theorem tryRelocate_some_spec {nonResAll : List Nat} {sysNum : Nat}
    {ls ls' : LoopState} :
    ∀ {docs : List AllocationDoc},
      tryRelocate nonResAll sysNum ls docs = some ls' →
      ls'.chosen = ls.chosen ∧
      ∃ aid target, target ∈ nonResAll ∧
        ls'.reshuffles = ls.reshuffles ++
          [{ moveAllocationId := aid, fromSys := sysNum, toSys := target }] := by
  intro docs
  induction docs with
  | nil =>
    intro h
    exact absurd h (by simp [tryRelocate])
  | cons alloc rest ih =>
    intro h
    rw [tryRelocate] at h
    split at h
    · exact ih h
    · rename_i target ts hf
      obtain rfl := Option.some.inj h
      refine ⟨rfl, alloc.id, target, ?_, rfl⟩
      have hm : target ∈ nonResAll.filter (fun n =>
          n ∉ busyForAllocOf ls.allocations alloc.id
                (toMinutes alloc.inTime) (toMinutes alloc.outTime) ∧
            n ≠ sysNum) := hf ▸ List.mem_cons_self target ts
      exact (List.mem_filter.mp hm).1

theorem reshuffleLoop_chosen_mem (need : Nat) (nonResAll : List Nat)
    (origAllocs : List AllocationDoc) (s e : Nat) :
    ∀ (cands : List Nat) (ls : LoopState) (n : Nat),
      n ∈ (reshuffleLoop need nonResAll origAllocs s e cands ls).chosen →
      n ∈ ls.chosen ∨ n ∈ cands := by
  intro cands
  induction cands with
  | nil =>
    intro ls n hn
    exact Or.inl hn
  | cons sysNum rest ih =>
    intro ls n hn
    rw [reshuffleLoop] at hn
    split at hn
    · split at hn
      · rcases ih ls n hn with h | h
        · exact Or.inl h
        · exact Or.inr (List.mem_cons_of_mem _ h)
      · rename_i st1 htr
        obtain ⟨hch, -, -, -, -⟩ := tryRelocate_some_spec htr
        split at hn
        · rcases List.mem_append.mp hn with h | h
          · exact Or.inl (hch ▸ h)
          · have h2 := List.mem_singleton.mp h
            subst h2
            exact Or.inr (List.mem_cons_self _ _)
        · rcases ih _ n hn with h | h
          · rcases List.mem_append.mp h with h1 | h1
            · exact Or.inl (hch ▸ h1)
            · have h2 := List.mem_singleton.mp h1
              subst h2
              exact Or.inr (List.mem_cons_self _ _)
          · exact Or.inr (List.mem_cons_of_mem _ h)
    · split at hn
      · rcases List.mem_append.mp hn with h | h
        · exact Or.inl h
        · have h2 := List.mem_singleton.mp h
          subst h2
          exact Or.inr (List.mem_cons_self _ _)
      · rcases ih _ n hn with h | h
        · rcases List.mem_append.mp h with h1 | h1
          · exact Or.inl h1
          · have h2 := List.mem_singleton.mp h1
            subst h2
            exact Or.inr (List.mem_cons_self _ _)
        · exact Or.inr (List.mem_cons_of_mem _ h)

theorem reshuffleLoop_reshuffles_mem (need : Nat) (nonResAll : List Nat)
    (origAllocs : List AllocationDoc) (s e : Nat) :
    ∀ (cands : List Nat) (ls : LoopState) (r : Reshuffle),
      r ∈ (reshuffleLoop need nonResAll origAllocs s e cands ls).reshuffles →
      r ∈ ls.reshuffles ∨ r.toSys ∈ nonResAll := by
  intro cands
  induction cands with
  | nil =>
    intro ls r hr
    exact Or.inl hr
  | cons sysNum rest ih =>
    intro ls r hr
    rw [reshuffleLoop] at hr
    split at hr
    · split at hr
      · exact ih ls r hr
      · rename_i st1 htr
        obtain ⟨-, aid, target, htm, hrs⟩ := tryRelocate_some_spec htr
        split at hr
        · rcases List.mem_append.mp (hrs ▸ hr) with h | h
          · exact Or.inl h
          · have := List.mem_singleton.mp h
            rw [this]
            exact Or.inr htm
        · rcases ih _ r hr with h | h
          · rcases List.mem_append.mp (hrs ▸ h) with h1 | h1
            · exact Or.inl h1
            · have := List.mem_singleton.mp h1
              rw [this]
              exact Or.inr htm
          · exact Or.inr h
    · split at hr
      · exact Or.inl hr
      · rcases ih _ r hr with h | h
        · exact Or.inl h
        · exact Or.inr h

/-- C5: every successful outcome (direct or minimal-reshuffle) chooses only
numbers outside both classes' derived reserved sets, and every relocation
move's target is outside both reserved sets as well; the carve-out applies
regardless of stored status since the non-reserved candidate lists filter
on derived reservation only. -/
theorem success_avoids_reserved (st : State) (requestId : String) (now : Nat)
    (mode : String) (chosen : List Nat) (rs : List Reshuffle)
    (hnodup : (st.systems.map (fun s => s.systemNumber)).Nodup)
    (hres : (agentAllocateSingle st requestId now).1 = AgentResult.ok mode chosen rs) :
    (∀ n ∈ chosen, n ∉ reservedI7Of st ∧ n ∉ reservedI9Of st) ∧
    (∀ r ∈ rs, r.toSys ∉ reservedI7Of st ∧ r.toSys ∉ reservedI9Of st) := by
  unfold agentAllocateSingle at hres
  cases hfind : st.requests.find? (fun rq => rq.id = requestId) with
  | none =>
    rw [hfind] at hres
    exact AgentResult.noConfusion hres
  | some req =>
    rw [hfind] at hres
    simp only at hres
    by_cases hp : req.status ≠ "pending"
    · rw [if_pos hp] at hres
      exact AgentResult.noConfusion hres
    · rw [if_neg hp] at hres
      by_cases hd : (directFreeOf st req).length ≥ needOf req
      · rw [if_pos hd] at hres
        obtain ⟨hm, hc, hr⟩ := AgentResult.ok.inj hres
        subst hc
        subst hr
        refine ⟨fun n hn => ?_, fun r hr => absurd hr (List.not_mem_nil r)⟩
        exact not_reserved_of_mem_nonReservedAllOf hnodup
          (directFreeOf_subset_nonReservedAllOf st req (List.take_subset _ _ hn))
      · rw [if_neg hd] at hres
        by_cases hr2 : (reshufflePhaseOf st req).chosen.length ≥ needOf req
        · rw [if_pos hr2] at hres
          obtain ⟨hm, hc, hr⟩ := AgentResult.ok.inj hres
          subst hc
          subst hr
          constructor
          · intro n hn
            have hmem := List.take_subset _ _ hn
            unfold reshufflePhaseOf at hmem
            rcases reshuffleLoop_chosen_mem _ _ _ _ _ _ _ n hmem with h | h
            · exact absurd h (List.not_mem_nil n)
            · exact not_reserved_of_mem_nonReservedAllOf hnodup h
          · intro r hrm
            unfold reshufflePhaseOf at hrm
            rcases reshuffleLoop_reshuffles_mem _ _ _ _ _ _ _ r hrm with h | h
            · exact absurd h (List.not_mem_nil r)
            · exact not_reserved_of_mem_nonReservedAllOf hnodup h
        · rw [if_neg hr2] at hres
          exact AgentResult.noConfusion hres

/-- Witness for C5: system 1, chosen by the Scenario A direct allocation,
is outside both reserved sets (for `stA` those are systems 9 and 10). -/
theorem success_avoids_reserved_witness :
    1 ∉ reservedI7Of stA ∧ 1 ∉ reservedI9Of stA :=
  (success_avoids_reserved stA "r1" 0 "direct" [1, 2, 3] []
    (by decide) (by decide)).1 1 (by decide)

/-- C2 amended: in direct mode no chosen resource has stored status
"maintenance" (the reshuffle pass does not filter maintenance, see the
counterexample, so the guarantee is confined to the direct path). -/
theorem direct_chosen_not_maintenance (st : State) (requestId : String) (now : Nat)
    (chosen : List Nat) (rs : List Reshuffle)
    (hnodup : (st.systems.map (fun s => s.systemNumber)).Nodup)
    (hres : (agentAllocateSingle st requestId now).1 =
      AgentResult.ok "direct" chosen rs) :
    ∀ s ∈ st.systems, s.systemNumber ∈ chosen → s.status ≠ "maintenance" := by
  unfold agentAllocateSingle at hres
  cases hfind : st.requests.find? (fun rq => rq.id = requestId) with
  | none =>
    rw [hfind] at hres
    exact AgentResult.noConfusion hres
  | some req =>
    rw [hfind] at hres
    simp only at hres
    by_cases hp : req.status ≠ "pending"
    · rw [if_pos hp] at hres
      exact AgentResult.noConfusion hres
    · rw [if_neg hp] at hres
      by_cases hd : (directFreeOf st req).length ≥ needOf req
      · rw [if_pos hd] at hres
        obtain ⟨-, hc, -⟩ := AgentResult.ok.inj hres
        subst hc
        intro s hs hmem
        obtain ⟨t, htm, hnum, -, -, hmaint⟩ :=
          mem_directFreeOf.mp (List.take_subset _ _ hmem)
        have heq : t = s := numbers_injOn hnodup htm hs hnum
        exact heq ▸ hmaint
      · rw [if_neg hd] at hres
        by_cases hr2 : (reshufflePhaseOf st req).chosen.length ≥ needOf req
        · rw [if_pos hr2] at hres
          have hm := (AgentResult.ok.inj hres).1
          exact absurd hm (by decide)
        · rw [if_neg hr2] at hres
          exact AgentResult.noConfusion hres

/-- Witness for C2 (amended): system 1 of the Scenario A store, chosen by
the direct allocation, is not in maintenance. -/
theorem direct_chosen_not_maintenance_witness :
    mkSys 1 "i7" "available" ∈ stA.systems ∧
    ¬(mkSys 1 "i7" "available").status = "maintenance" :=
  ⟨by decide,
   direct_chosen_not_maintenance stA "r1" 0 [1, 2, 3] [] (by decide) (by decide)
     (mkSys 1 "i7" "available") (by decide) (by decide)⟩

/-- C8: applying one relocation move at commit time rewrites only the
matching commitment's system set, and only by substituting the source
number with the target; id, owning request, date and both window bounds
are unchanged, non-matching commitments are untouched, and no commitment
is added or removed. -/
theorem relocation_frame (allocs : List AllocationDoc) (r : Reshuffle) :
    (applyOneReshuffle allocs r).length = allocs.length ∧
    ∀ a ∈ allocs,
      ∃ a' ∈ applyOneReshuffle allocs r,
        a'.id = a.id ∧ a'.requestId = a.requestId ∧ a'.date = a.date ∧
        a'.inTime = a.inTime ∧ a'.outTime = a.outTime ∧
        (a.id = r.moveAllocationId →
          a'.systems = substSys r.fromSys r.toSys a.systems) ∧
        (a.id ≠ r.moveAllocationId → a' = a) := by
  refine ⟨by simp [applyOneReshuffle], fun a ha => ?_⟩
  refine ⟨if a.id = r.moveAllocationId then
      { a with systems := substSys r.fromSys r.toSys a.systems } else a,
    List.mem_map_of_mem _ ha, ?_⟩
  by_cases h : a.id = r.moveAllocationId
  · simp [h]
  · simp [h]

/-- Witness for C8: the commit-time rewrite of commitment "X" moved from
system 2 to system 1. -/
theorem relocation_frame_witness :
    ∃ a' ∈ applyOneReshuffle [allocX]
        { moveAllocationId := "X", fromSys := 2, toSys := 1 },
      a'.id = allocX.id ∧ a'.requestId = allocX.requestId ∧
      a'.date = allocX.date ∧ a'.inTime = allocX.inTime ∧
      a'.outTime = allocX.outTime ∧
      (allocX.id = "X" → a'.systems = substSys 2 1 allocX.systems) ∧
      (allocX.id ≠ "X" → a' = allocX) :=
  (relocation_frame [allocX]
    { moveAllocationId := "X", fromSys := 2, toSys := 1 }).2 allocX (by decide)

/-! ### Status-blindness of the availability analysis -/

theorem orderedInsert_map (f : SystemDoc → SystemDoc)
    (hnum : ∀ s, (f s).systemNumber = s.systemNumber) (a : SystemDoc)
    (l : List SystemDoc) :
    (l.map f).orderedInsert (fun x y => x.systemNumber ≤ y.systemNumber) (f a) =
      (l.orderedInsert (fun x y => x.systemNumber ≤ y.systemNumber) a).map f := by
  induction l with
  | nil => rfl
  | cons b l ih =>
    simp only [List.map_cons, List.orderedInsert, hnum]
    by_cases h : a.systemNumber ≤ b.systemNumber
    · simp [h]
    · simp [h, ih]

theorem insertionSort_map (f : SystemDoc → SystemDoc)
    (hnum : ∀ s, (f s).systemNumber = s.systemNumber) (l : List SystemDoc) :
    (l.map f).insertionSort (fun x y => x.systemNumber ≤ y.systemNumber) =
      (l.insertionSort (fun x y => x.systemNumber ≤ y.systemNumber)).map f := by
  induction l with
  | nil => rfl
  | cons a l ih =>
    simp only [List.map_cons, List.insertionSort, ih, orderedInsert_map f hnum a]

theorem sortedSystemsOf_map (st : State) (f : SystemDoc → SystemDoc)
    (hnum : ∀ s, (f s).systemNumber = s.systemNumber) :
    sortedSystemsOf { st with systems := st.systems.map f } =
      (sortedSystemsOf st).map f := by
  unfold sortedSystemsOf
  exact insertionSort_map f hnum st.systems

theorem i7NumsOf_map (st : State) (f : SystemDoc → SystemDoc)
    (hnum : ∀ s, (f s).systemNumber = s.systemNumber)
    (htype : ∀ s, (f s).type = s.type) :
    i7NumsOf { st with systems := st.systems.map f } = i7NumsOf st := by
  unfold i7NumsOf
  rw [sortedSystemsOf_map st f hnum, List.filter_map, List.map_map]
  have hpred : ((fun s : SystemDoc => decide (s.type = "i7")) ∘ f) =
      fun s : SystemDoc => decide (s.type = "i7") := by
    funext s
    simp [Function.comp, htype s]
  have hproj : ((fun s : SystemDoc => s.systemNumber) ∘ f) =
      fun s : SystemDoc => s.systemNumber := by
    funext s
    simp [Function.comp, hnum s]
  rw [hpred, hproj]

theorem i9NumsOf_map (st : State) (f : SystemDoc → SystemDoc)
    (hnum : ∀ s, (f s).systemNumber = s.systemNumber)
    (htype : ∀ s, (f s).type = s.type) :
    i9NumsOf { st with systems := st.systems.map f } = i9NumsOf st := by
  unfold i9NumsOf
  rw [sortedSystemsOf_map st f hnum, List.filter_map, List.map_map]
  have hpred : ((fun s : SystemDoc => decide (s.type = "i9")) ∘ f) =
      fun s : SystemDoc => decide (s.type = "i9") := by
    funext s
    simp [Function.comp, htype s]
  have hproj : ((fun s : SystemDoc => s.systemNumber) ∘ f) =
      fun s : SystemDoc => s.systemNumber := by
    funext s
    simp [Function.comp, hnum s]
  rw [hpred, hproj]

theorem isReservedSys_map (st : State) (f : SystemDoc → SystemDoc)
    (hnum : ∀ s, (f s).systemNumber = s.systemNumber)
    (htype : ∀ s, (f s).type = s.type) (s : SystemDoc) :
    isReservedSys { st with systems := st.systems.map f } (f s) =
      isReservedSys st s := by
  unfold isReservedSys reservedI7Of reservedI9Of
  rw [i7NumsOf_map st f hnum htype, i9NumsOf_map st f hnum htype,
    htype s, hnum s]

/-- C10: the availability analysis is blind to stored statuses other than
"maintenance": rewriting statuses in any number-, class- and
maintenance-preserving way leaves the directly-free list unchanged, and
membership in the directly-free list is characterised exactly by derived
non-reservation, non-maintenance and absence from the busy set. -/
theorem directFree_status_blind (st : State) (req : RequestDoc)
    (f : SystemDoc → SystemDoc)
    (hnum : ∀ s, (f s).systemNumber = s.systemNumber)
    (htype : ∀ s, (f s).type = s.type)
    (hmaint : ∀ s, ((f s).status = "maintenance" ↔ s.status = "maintenance")) :
    directFreeOf { st with systems := st.systems.map f } req =
      directFreeOf st req ∧
    (∀ n, n ∈ directFreeOf st req ↔
      ∃ s, s ∈ st.systems ∧ s.systemNumber = n ∧ isReservedSys st s = false ∧
        n ∉ busyOf st req ∧ s.status ≠ "maintenance") := by
  refine ⟨?_, fun n => mem_directFreeOf⟩
  unfold directFreeOf
  rw [sortedSystemsOf_map st f hnum, List.filter_map, List.map_map]
  have hproj : ((fun s : SystemDoc => s.systemNumber) ∘ f) =
      fun s : SystemDoc => s.systemNumber := by
    funext s
    simp [Function.comp, hnum s]
  rw [hproj]
  refine congrArg _ (List.filter_congr ?_)
  intro s hs
  simp only [Function.comp_apply]
  rw [decide_eq_decide]
  have hb : busyOf { st with systems := st.systems.map f } req =
      busyOf st req := rfl
  rw [isReservedSys_map st f hnum htype s, hnum s, hb]
  exact and_congr Iff.rfl (and_congr Iff.rfl (not_congr (hmaint s)))

/-- Witness for C10: flipping every "available" system of the Scenario A
store to "occupied" leaves its directly-free list unchanged. -/
theorem directFree_status_blind_witness :
    directFreeOf { stA with systems := stA.systems.map statusFlip } reqA =
      directFreeOf stA reqA :=
  (directFree_status_blind stA reqA statusFlip
    (fun s => by unfold statusFlip; by_cases h : s.status = "available" <;> simp [h])
    (fun s => by unfold statusFlip; by_cases h : s.status = "available" <;> simp [h])
    (fun s => by unfold statusFlip; by_cases h : s.status = "available" <;> simp [h])).1
